import Mathlib

/- Shallow embedding of the `rust-raytracer-in-one-weekend` repository.

   Conventions:
   - the Rust scalar type `Float` (an alias for `f32`) is modelled as the
     real numbers; decimal literals denote their exact decimal value;
   - `std::f32::INFINITY`, used as an upper hit window bound, is modelled
     by working with `WithTop Float` bounds (`⊤` is the infinity);
   - the thread-local random number generator is modelled by passing the
     drawn samples in explicitly (a `Vec3` for `random_in_unit_sphere`
     and a scalar for `rng.gen::<Float>()`); the scatter decision logic
     itself is deterministic in the sources;
   - the `&mut Vec3` attenuation out-parameter of `Material::scatter` is
     modelled by value passing: `scatter` takes the buffer's prior value
     and returns its final value next to the optional scattered ray. -/

open Classical

noncomputable section

namespace RT

abbrev Float : Type := ℝ

/-- `EPSILON` from `num_traits.rs`. -/
def EPSILON : Float := 0.000001

/-- `Vec3<Float>` from `geo/vec3.rs`. -/
structure Vec3 where
  x : Float
  y : Float
  z : Float

/-- `vec3` from `geo.rs`. -/
def vec3 (x y z : Float) : Vec3 := ⟨x, y, z⟩

/-- `Vec3::dot` from `geo/vec3.rs`. -/
def Vec3.dot (u v : Vec3) : Float :=
  u.x * v.x + u.y * v.y + u.z * v.z

/-- `Vec3::cross` from `geo/vec3.rs`. -/
def Vec3.cross (u v : Vec3) : Vec3 :=
  ⟨u.y * v.z - u.z * v.y, u.z * v.x - u.x * v.z, u.x * v.y - u.y * v.x⟩

instance : Add Vec3 := ⟨fun u v => ⟨u.x + v.x, u.y + v.y, u.z + v.z⟩⟩

instance : Sub Vec3 := ⟨fun u v => ⟨u.x - v.x, u.y - v.y, u.z - v.z⟩⟩

instance : Neg Vec3 := ⟨fun v => ⟨-v.x, -v.y, -v.z⟩⟩

instance : HMul Vec3 Float Vec3 := ⟨fun v s => ⟨v.x * s, v.y * s, v.z * s⟩⟩

/-- `Vec3::len_squared` from `geo/vec3.rs`. -/
def Vec3.len_squared (v : Vec3) : Float := v.dot v

/-- `Vec3::len` from `geo/vec3.rs`. -/
def Vec3.len (v : Vec3) : Float := Real.sqrt v.len_squared

/-- `Vec3::normalized` from `geo/vec3.rs`: `self * self.len().recip()`
    with `Recip` for `f32` defined as `1.0 / self`. -/
def Vec3.normalized (v : Vec3) : Vec3 := v * (1 / v.len)

/-- `Point3<Float>` from `geo/point3.rs`. -/
structure Point3 where
  x : Float
  y : Float
  z : Float

/-- `point3` from `geo.rs`. -/
def point3 (x y z : Float) : Point3 := ⟨x, y, z⟩

/-- `Point3::origin` from `geo/point3.rs`. -/
def Point3.origin : Point3 := ⟨0, 0, 0⟩

instance : HAdd Point3 Vec3 Point3 :=
  ⟨fun p v => ⟨p.x + v.x, p.y + v.y, p.z + v.z⟩⟩

instance : HSub Point3 Point3 Vec3 :=
  ⟨fun p q => ⟨p.x - q.x, p.y - q.y, p.z - q.z⟩⟩

instance : HMul Point3 Float Point3 :=
  ⟨fun p s => ⟨p.x * s, p.y * s, p.z * s⟩⟩

/-- `Ray` from `geo/ray.rs` (fields `o`, `d`). -/
structure Ray where
  o : Point3
  d : Vec3

/-- `Ray::origin`. -/
def Ray.origin (r : Ray) : Point3 := r.o

/-- `Ray::direction`. -/
def Ray.direction (r : Ray) : Vec3 := r.d

/-- `Ray::eval` from `geo/ray.rs`: `self.o + self.d * t`. -/
def Ray.eval (r : Ray) (t : Float) : Point3 := r.o + r.d * t

/-- The closed set of material variants of the repository
    (`material/{lambertian,metal,dielectric,null}.rs`), as a tagged sum;
    the sources use trait objects over the same four implementations. -/
inductive Material where
  | lambertian (albedo : Vec3)
  | metal (albedo : Vec3) (roughness : Float)
  | dielectric (refraction_index : Float)
  | null

/-- `HitStruct` from `hit.rs`. -/
structure HitStruct where
  t : Float
  p : Point3
  n : Vec3
  front_face : Bool
  material : Material

/-- `HitStruct::new` from `hit.rs`: records `front_face` and reorients
    the outward normal against the incoming ray. -/
def HitStruct.new (t : Float) (p : Point3) (ray : Ray)
    (outward_normal : Vec3) (material : Material) : HitStruct :=
  let front_face := ray.d.dot outward_normal < 0
  { t := t, p := p,
    n := if front_face then outward_normal else -outward_normal,
    front_face := decide front_face,
    material := material }

/-- `reflect` from `material/metal.rs` and `material/dielectric.rs`:
    `v - n * v.dot(n) * 2.0`. -/
def reflect (v n : Vec3) : Vec3 := v - n * (v.dot n) * (2 : Float)

/-- `schlick` from `material/dielectric.rs`. -/
def schlick (cosine refraction_index : Float) : Float :=
  let r0 := (1 - refraction_index) / (1 + refraction_index)
  let r0 := r0 * r0
  r0 + (1 - r0) * (1 - cosine) ^ (5 : ℕ)

/-- `refract` from `material/dielectric.rs`. -/
def refract (uv n : Vec3) (etai_over_etat : Float) : Vec3 :=
  let cos_theta := -(uv.dot n)
  let r_out_parallel := (uv + n * cos_theta) * etai_over_etat
  let r_out_perp :=
    n * (-(Real.sqrt (1 - min r_out_parallel.len_squared 1)))
  r_out_parallel + r_out_perp

/-- One random draw: the `random_in_unit_sphere()` sample and the
    `rng.gen::<Float>()` sample a single `scatter` call may consume. -/
abbrev RndDraw : Type := Vec3 × Float

/-- `Material::scatter` (trait in `material.rs`, implementations in
    `material/{lambertian,metal,dielectric,null}.rs`).  `att0` is the
    prior value of the `&mut Vec3` attenuation buffer; the returned pair
    is the final buffer value and the optional scattered ray.  `rnd`
    carries the random samples drawn inside the call. -/
def Material.scatter :
    Material → Ray → HitStruct → Vec3 → RndDraw → Vec3 × Option Ray
  | .lambertian albedo, _, hit, _, (rsphere, _) =>
      let n := hit.n.normalized
      let d := n + rsphere
      (albedo, some ⟨hit.p, d⟩)
  | .metal albedo roughness, ray, hit, _, (rsphere, _) =>
      let reflected := reflect ray.d.normalized hit.n
      let scattered : Ray := ⟨hit.p, reflected + rsphere * roughness⟩
      (albedo, if reflected.dot hit.n > 0 then some scattered else none)
  | .dielectric refraction_index, r_in, rec, _, (_, runif) =>
      let att := vec3 1 1 1
      let d := r_in.d.normalized
      let en : Float × Vec3 :=
        if rec.front_face then (1 / refraction_index, rec.n.normalized)
        else (refraction_index, -rec.n.normalized)
      let etai_over_etat := en.1
      let n := en.2
      let cos_theta := max (min ((-d).dot n) 1) (-1)
      let sin_theta := Real.sqrt (1 - cos_theta * cos_theta)
      let scattered :=
        if etai_over_etat * sin_theta > 1 then reflect d n
        else if runif < schlick cos_theta etai_over_etat then reflect d n
        else refract d n etai_over_etat
      (att, some ⟨rec.p, scattered⟩)
  | .null, _, _, _, _ =>
      (vec3 0 0 0, some ⟨point3 0 0 0, vec3 0 0 0⟩)

/-- `Sphere` from `shape/sphere.rs`. -/
structure Sphere where
  center : Point3
  radius : Float
  material : Material

/-- `Sphere::hit` from `shape/sphere.rs`.  The source constructs the
    `HitStruct` literal directly from the raw outward normal — it does
    not call `HitStruct::new` and does not even name the `front_face`
    field (the literal does not compile against `hit.rs`); we fill that
    missing field with `false`, and no theorem below depends on it. -/
def Sphere.hit (s : Sphere) (ray : Ray) (t_min : Float)
    (t_max : WithTop Float) : Option HitStruct :=
  let oc := ray.o - s.center
  let a := ray.d.len_squared
  let b := oc.dot ray.d
  let c := oc.len_squared - s.radius * s.radius
  let discriminant := b * b - a * c
  if discriminant > 0 then
    let t1 := (-b - Real.sqrt discriminant) / a
    if t1 > t_min ∧ (t1 : WithTop Float) < t_max then
      some ⟨t1, ray.eval t1, (ray.eval t1 - s.center) * (1 / s.radius),
            false, s.material⟩
    else
      let t2 := (-b + Real.sqrt discriminant) / a
      if t2 > t_min ∧ (t2 : WithTop Float) < t_max then
        some ⟨t2, ray.eval t2, (ray.eval t2 - s.center) * (1 / s.radius),
              false, s.material⟩
      else none
  else none

/-- `Triangle` from `shape/triangle.rs` (`positions: [Point3f; 3]`). -/
structure Triangle where
  positions : Point3 × Point3 × Point3
  material : Material

/-- `Intersection` from `shape/triangle.rs`. -/
structure Intersection where
  p : Point3
  n : Vec3
  t : Float
  uv : Float × Float

/-- `moller_trumbore` from `shape/triangle.rs`. -/
def moller_trumbore (ray : Ray) (triangle : Triangle) : Option Intersection :=
  let v0 := triangle.positions.1
  let v1 := triangle.positions.2.1
  let v2 := triangle.positions.2.2
  let e1 := v1 - v0
  let e2 := v2 - v0
  let h := ray.d.cross e2
  let a := e1.dot h
  if a > -EPSILON ∧ a < EPSILON then none
  else
    let f := 1 / a
    let s := ray.o - v0
    let u := f * s.dot h
    if u < 0 ∨ u > 1 then none
    else
      let q := s.cross e1
      let v := f * ray.d.dot q
      if v < 0 ∨ u + v > 1 then none
      else
        let t := f * e2.dot q
        if t > EPSILON then
          some ⟨v0 + (e1 * u + e2 * v), (e1.cross e2).normalized, t, (u, v)⟩
        else none

/-- `Triangle::intersection` from `shape/triangle.rs`. -/
def Triangle.intersection (tr : Triangle) (ray : Ray) : Option Intersection :=
  moller_trumbore ray tr

/-- `Triangle::hit` (the `Hit` impl) from `shape/triangle.rs`. -/
def Triangle.hit (tr : Triangle) (ray : Ray) (t_min : Float)
    (t_max : WithTop Float) : Option HitStruct :=
  match tr.intersection ray with
  | some i =>
      if i.t > t_min ∧ (i.t : WithTop Float) < t_max then
        some (HitStruct.new i.t i.p ray i.n tr.material)
      else none
  | none => none

/-- A scene object: the sources store `&dyn Hit` trait objects whose
    implementations are exactly `Sphere` and `Triangle`. -/
inductive Object where
  | sphere : Sphere → Object
  | triangle : Triangle → Object

/-- Dispatch of `Hit::hit` over the two primitive kinds. -/
def Object.hit : Object → Ray → Float → WithTop Float → Option HitStruct
  | .sphere s, ray, t_min, t_max => s.hit ray t_min t_max
  | .triangle tr, ray, t_min, t_max => tr.hit ray t_min t_max

/-- `Scene` from `bin/main.rs`. -/
structure Scene where
  objects : List Object

/-- The body of the `for` loop of `impl Hit for Scene` in `bin/main.rs`:
    scans the remaining objects, tightening the running upper bound to
    each accepted hit's `t` and remembering that hit. -/
def sceneHitLoop (ray : Ray) (t_min : Float) :
    List Object → WithTop Float → Option HitStruct → Option HitStruct
  | [], _, hit_struct => hit_struct
  | obj :: rest, t_max, hit_struct =>
      match obj.hit ray t_min t_max with
      | some hit => sceneHitLoop ray t_min rest (hit.t : WithTop Float) (some hit)
      | none => sceneHitLoop ray t_min rest t_max hit_struct

/-- `Scene::hit` (the `Hit` impl for `Scene`) from `bin/main.rs`. -/
def Scene.hit (s : Scene) (ray : Ray) (t_min : Float)
    (t_max : WithTop Float) : Option HitStruct :=
  sceneHitLoop ray t_min s.objects t_max none

/-- `LinearColor` from `color/linear.rs`. -/
structure LinearColor where
  r : Float
  g : Float
  b : Float
  a : Float

/-- `LinearColor::from_channels`. -/
def LinearColor.from_channels (r g b a : Float) : LinearColor := ⟨r, g, b, a⟩

/-- `impl Default for LinearColor` from `color/linear.rs`:
    `from_channels(0.0, 0.0, 0.0, 1.0)`. -/
def LinearColor.defaultColor : LinearColor := LinearColor.from_channels 0 0 0 1

instance : Add LinearColor :=
  ⟨fun c rhs => LinearColor.from_channels (c.r + rhs.r) (c.g + rhs.g) (c.b + rhs.b) c.a⟩

instance : HMul LinearColor Float LinearColor :=
  ⟨fun c s => LinearColor.from_channels (c.r * s) (c.g * s) (c.b * s) c.a⟩

/-- The generic `lerp` from `bin/main.rs`: `a * (1.0 - t) + b * t`,
    instantiated at `LinearColor` as `ray_color` uses it. -/
def lerp (t : Float) (a b : LinearColor) : LinearColor :=
  a * ((1 : Float) - t) + b * t

/-- A stream of random draws, one per recursion level of `ray_color`. -/
abbrev RndStream : Type := ℕ → RndDraw

/-- `ray_color` from `bin/main.rs`.  The `limit == 0` test sits inside
    the hit branch, exactly as in the source; a miss falls through to the
    "Studio" background regardless of `limit`. -/
def ray_color (scene : Scene) : ℕ → Ray → RndStream → LinearColor
  | limit, ray, rnd =>
    match Scene.hit scene ray 0.0001 ⊤ with
    | some hit =>
        match limit with
        | 0 => LinearColor.defaultColor
        | Nat.succ n =>
            let res := Material.scatter hit.material ray hit (vec3 0 0 0) (rnd 0)
            match res.2 with
            | some scattered =>
                let c := ray_color scene n scattered (fun k => rnd (k + 1))
                LinearColor.from_channels (c.r * res.1.x) (c.g * res.1.y)
                  (c.b * res.1.z) 1
            | none => LinearColor.defaultColor
    | none =>
        let unit := ray.d.normalized
        let t := (unit.y + 1) * 0.5
        lerp t (LinearColor.from_channels 0 0 0 0)
          (LinearColor.from_channels 1 1 1 0)

/-- `CameraSpec` from `camera.rs`. -/
structure CameraSpec where
  vfov : Float
  aspect : Float
  look_from : Point3
  look_at : Point3
  up : Vec3

/-- `Camera` from `camera.rs`. -/
structure Camera where
  origin : Point3
  lower_left_corner : Vec3
  horizontal : Vec3
  vertical : Vec3

/-- `degrees_to_radians` from `camera.rs`: `degrees / 360.0 * PI`. -/
def degrees_to_radians (degrees : Float) : Float :=
  degrees / 360 * Real.pi

/-- `Camera::from_spec` from `camera.rs`. -/
def Camera.from_spec (spec : CameraSpec) : Camera :=
  let origin := spec.look_from
  let w := (spec.look_from - spec.look_at).normalized
  let u := (spec.up.cross w).normalized
  let v := w.cross u
  let theta := degrees_to_radians spec.vfov
  let half_height := Real.tan (theta / 2)
  let half_width := spec.aspect * half_height
  let lower_left_corner :=
    (origin - Point3.origin) - u * half_width - v * half_height - w
  { origin := origin,
    lower_left_corner := lower_left_corner,
    horizontal := u * (2 * half_width),
    vertical := v * (2 * half_height) }

/-- `Camera::get_ray` from `camera.rs`. -/
def Camera.get_ray (c : Camera) (u v : Float) : Ray :=
  let direction :=
    c.lower_left_corner + c.horizontal * u + c.vertical * v -
      (c.origin - Point3.origin)
  ⟨c.origin, direction⟩

/-- `RenderOptions` from `bin/main.rs`. -/
structure RenderOptions where
  nx : ℕ
  ny : ℕ
  ns : ℕ
  n_max_bounce : ℕ

/-- `impl Default for RenderOptions` from `bin/main.rs`. -/
def RenderOptions.defaultOptions : RenderOptions :=
  { nx := 40 * 16, ny := 40 * 9, ns := 8, n_max_bounce := 50 }

/-- The local helper `arg` inside `RenderOptions::from_args`:
    `arg.unwrap_or(&"".into()).parse::<T>().unwrap_or(default)`.
    `parseFn` models `str::parse::<usize>` of the Rust standard library
    (an external collaborator); it returns `none` on a parse error. -/
def argOrDefault (parseFn : String → Option ℕ) (a : Option String)
    (dflt : ℕ) : ℕ :=
  (parseFn (a.getD "")).getD dflt

/-- `RenderOptions::from_args` from `bin/main.rs`. -/
def RenderOptions.from_args (parseFn : String → Option ℕ)
    (args : List String) : RenderOptions :=
  { ns := argOrDefault parseFn (args.get? 1) RenderOptions.defaultOptions.ns,
    nx := argOrDefault parseFn (args.get? 2) RenderOptions.defaultOptions.nx,
    ny := argOrDefault parseFn (args.get? 3) RenderOptions.defaultOptions.ny,
    n_max_bounce := RenderOptions.defaultOptions.n_max_bounce }

/-- The random draws one pixel sample consumes: `rng.gen::<f32>()` for
    `u`, for `v`, and the stream handed down to `ray_color`. -/
abbrev PixelRnd : Type := ℕ → Float × Float × RndStream

/-- The inner per-pixel closure of `render` in `bin/main.rs`: `ns`
    samples accumulated from `LinearColor::default()`, then averaged by
    `* (1.0 / ns)`. -/
def renderPixel (scene : Scene) (camera : Camera) (opt : RenderOptions)
    (i j : ℕ) (rnd : PixelRnd) : LinearColor :=
  ((List.range opt.ns).foldl
      (fun color k =>
        let u := ((i : Float) + (rnd k).1) / (opt.nx : Float)
        let v := ((j : Float) + (rnd k).2.1) / (opt.ny : Float)
        let ray := camera.get_ray u v
        color + ray_color scene opt.n_max_bounce ray (rnd k).2.2)
      LinearColor.defaultColor) * ((1 : Float) / (opt.ns : Float))

/-- `render` from `bin/main.rs`: rows in reverse `j` order, columns in
    `i` order, flattened (`concat`).  `rnd j i` supplies the random
    draws of pixel `(i, j)`. -/
def render (scene : Scene) (camera : Camera) (opt : RenderOptions)
    (rnd : ℕ → ℕ → PixelRnd) : List LinearColor :=
  (((List.range opt.ny).reverse).map
      (fun j => (List.range opt.nx).map
        (fun i => renderPixel scene camera opt i j (rnd j i)))).flatten

/- ------------------------------------------------------------------ -/
/- Component-level unfolding lemmas for the arithmetic instances.      -/
/- ------------------------------------------------------------------ -/

@[simp]
theorem Vec3.add_components (u v : Vec3) :
    u + v = ⟨u.x + v.x, u.y + v.y, u.z + v.z⟩ := rfl

@[simp]
theorem Vec3.sub_components (u v : Vec3) :
    u - v = ⟨u.x - v.x, u.y - v.y, u.z - v.z⟩ := rfl

@[simp]
theorem Vec3.neg_components (v : Vec3) : -v = ⟨-v.x, -v.y, -v.z⟩ := rfl

@[simp]
theorem Vec3.smul_components (v : Vec3) (s : Float) :
    v * s = ⟨v.x * s, v.y * s, v.z * s⟩ := rfl

@[simp]
theorem Point3.add_vec_def (p : Point3) (v : Vec3) :
    p + v = ⟨p.x + v.x, p.y + v.y, p.z + v.z⟩ := rfl

@[simp]
theorem Point3.sub_point_components (p q : Point3) :
    p - q = (⟨p.x - q.x, p.y - q.y, p.z - q.z⟩ : Vec3) := rfl

@[simp]
theorem Point3.scale_components (p : Point3) (s : Float) :
    p * s = ⟨p.x * s, p.y * s, p.z * s⟩ := rfl

@[simp]
theorem LinearColor.add_channels (c rhs : LinearColor) :
    c + rhs = LinearColor.from_channels (c.r + rhs.r) (c.g + rhs.g)
      (c.b + rhs.b) c.a := rfl

@[simp]
theorem LinearColor.smul_channels (c : LinearColor) (s : Float) :
    c * s = LinearColor.from_channels (c.r * s) (c.g * s) (c.b * s) c.a := rfl

/- ------------------------------------------------------------------ -/
/- C3: NullMaterial::scatter                                           -/
/- ------------------------------------------------------------------ -/

/-- A concrete incoming ray used to probe `NullMaterial::scatter`. -/
def c3Ray : Ray := ⟨point3 1 2 3, vec3 4 5 6⟩

/-- A concrete hit record used to probe `NullMaterial::scatter`. -/
def c3Hit : HitStruct := ⟨1, point3 0 0 0, vec3 0 0 1, true, Material.null⟩

/-- C3, counterexample: on a concrete ray and hit record,
    `NullMaterial::scatter` does NOT return `None`: it returns a
    scattered ray (the degenerate ray at the origin), contradicting the
    claim that the null material always absorbs. -/
theorem c3_null_absorbs_counterexample :
    (Material.scatter Material.null c3Ray c3Hit (vec3 5 5 5)
        (vec3 0 0 0, 0)).2 ≠ none ∧
    (Material.scatter Material.null c3Ray c3Hit (vec3 5 5 5)
        (vec3 0 0 0, 0)).2 = some ⟨point3 0 0 0, vec3 0 0 0⟩ := by
  constructor
  · intro h
    simp only [Material.scatter] at h
    cases h
  · rfl

/-- C3, amended: for every incoming ray, hit record, prior attenuation
    buffer and random draw, `NullMaterial::scatter` overwrites the
    attenuation with `(0,0,0)` and returns `Some` scattered ray — the
    degenerate ray with origin `(0,0,0)` and direction `(0,0,0)` — so it
    never absorbs; the zero attenuation is what kills the radiance. -/
theorem c3_null_scatter_amended (ray : Ray) (hit : HitStruct) (att0 : Vec3)
    (rnd : RndDraw) :
    Material.scatter Material.null ray hit att0 rnd =
      (vec3 0 0 0, some ⟨point3 0 0 0, vec3 0 0 0⟩) := by
  obtain ⟨rs, ru⟩ := rnd
  rfl

/- ------------------------------------------------------------------ -/
/- C9: Metal::scatter overwrites the attenuation unconditionally       -/
/- ------------------------------------------------------------------ -/

/-- C9: `Metal::scatter` overwrites the attenuation out-parameter with
    the metal's albedo on every call — whatever the buffer held before
    and whether or not the call absorbs (returns no scattered ray). -/
theorem c9_metal_overwrites_attenuation (albedo : Vec3) (roughness : Float)
    (ray : Ray) (hit : HitStruct) (att0 : Vec3) (rnd : RndDraw) :
    (Material.scatter (Material.metal albedo roughness) ray hit att0 rnd).1 =
      albedo := by
  obtain ⟨rs, ru⟩ := rnd
  rfl

/- ------------------------------------------------------------------ -/
/- C5: Metal::scatter decision and attenuation                         -/
/- ------------------------------------------------------------------ -/

/-- C5: `Metal::scatter` returns a scattered ray if and only if the
    unperturbed reflection `r = d - 2 (d·n) n` of the unit incoming
    direction `d` satisfies `r · n > 0` (otherwise it absorbs), and the
    attenuation it reports equals the metal's albedo. -/
theorem c5_metal_scatter_iff (albedo : Vec3) (roughness : Float)
    (ray : Ray) (hit : HitStruct) (att0 : Vec3) (rnd : RndDraw) :
    ((Material.scatter (Material.metal albedo roughness) ray hit att0
        rnd).2.isSome ↔
      0 < (reflect ray.d.normalized hit.n).dot hit.n) ∧
    (Material.scatter (Material.metal albedo roughness) ray hit att0
        rnd).1 = albedo := by
  obtain ⟨rs, ru⟩ := rnd
  refine ⟨?_, rfl⟩
  simp only [Material.scatter]
  by_cases h : (reflect ray.d.normalized hit.n).dot hit.n > 0
  · simp [h]
  · simp [h]

/- ------------------------------------------------------------------ -/
/- C8: RenderOptions::from_args                                        -/
/- ------------------------------------------------------------------ -/

/-- C8: `RenderOptions::from_args` reads the positional arguments in
    order `ns nx ny` (indices 1, 2, 3 of the argument vector); a missing
    or unparseable field falls back to its default; the defaults are
    `nx = 640`, `ny = 360`, `ns = 8`, `n_max_bounce = 50`, and
    `n_max_bounce` is never taken from the arguments. -/
theorem c8_from_args (parseFn : String → Option ℕ)
    (hempty : parseFn "" = none) (args : List String) :
    (RenderOptions.from_args parseFn args).n_max_bounce = 50 ∧
    (∀ s, args.get? 1 = some s →
      (RenderOptions.from_args parseFn args).ns = (parseFn s).getD 8) ∧
    (args.get? 1 = none → (RenderOptions.from_args parseFn args).ns = 8) ∧
    (∀ s, args.get? 2 = some s →
      (RenderOptions.from_args parseFn args).nx = (parseFn s).getD 640) ∧
    (args.get? 2 = none → (RenderOptions.from_args parseFn args).nx = 640) ∧
    (∀ s, args.get? 3 = some s →
      (RenderOptions.from_args parseFn args).ny = (parseFn s).getD 360) ∧
    (args.get? 3 = none → (RenderOptions.from_args parseFn args).ny = 360) := by
  refine ⟨rfl, ?_, ?_, ?_, ?_, ?_, ?_⟩ <;>
    intro h <;>
    simp_all [RenderOptions.from_args, argOrDefault,
      RenderOptions.defaultOptions, hempty, List.getElem?_eq_none]

/-- A toy parser (length of a nonempty string) used only to instantiate
    the parser-generic claim-C8 theorem at a concrete input; it fails on
    the empty string, as Rust's `str::parse::<usize>` does. -/
def lenParse (s : String) : Option ℕ :=
  if s.length = 0 then none else some s.length

/-- C8 witness: a concrete parser and argument vector. -/
theorem c8_from_args_witness :
    (RenderOptions.from_args lenParse ["prog", "16", "800"]).n_max_bounce
        = 50 ∧
    (RenderOptions.from_args lenParse ["prog", "16", "800"]).ns = 2 ∧
    (RenderOptions.from_args lenParse ["prog", "16", "800"]).nx = 3 ∧
    (RenderOptions.from_args lenParse ["prog", "16", "800"]).ny = 360 := by
  have h := c8_from_args lenParse (by decide) ["prog", "16", "800"]
  refine ⟨h.1, ?_, ?_, ?_⟩
  · rw [h.2.1 "16" rfl]; decide
  · rw [h.2.2.2.1 "800" rfl]; decide
  · exact h.2.2.2.2.2.2 rfl

/- ------------------------------------------------------------------ -/
/- Concrete probes shared by several witnesses                         -/
/- ------------------------------------------------------------------ -/

/-- A ray from the origin pointing straight up. -/
def rayUp : Ray := ⟨point3 0 0 0, vec3 0 1 0⟩

/-- A zero random stream (the scatter decisions below never read it). -/
def rndZero : RndStream := fun _ => (vec3 0 0 0, 0)

/-- The unit sphere at the origin with the null material. -/
def unitSphere : Sphere := ⟨point3 0 0 0, 1, Material.null⟩

/-- A ray three units in front of `unitSphere`, shot at it. -/
def probeRay : Ray := ⟨point3 0 0 (-3), vec3 0 0 1⟩

/-- The record `Sphere::hit` produces for `probeRay` on `unitSphere`:
    the near root `t = 2`. -/
def probeHit : HitStruct := ⟨2, point3 0 0 (-1), vec3 0 0 (-1), false,
  Material.null⟩

theorem sphere_hit_probe :
    Sphere.hit unitSphere probeRay 0.0001 ⊤ = some probeHit := by
  rw [Sphere.hit]
  norm_num [unitSphere, probeRay, probeHit, Vec3.dot, Vec3.len_squared,
    Ray.eval, point3, vec3, WithTop.coe_lt_top]

theorem scene_hit_probe :
    Scene.hit ⟨[Object.sphere unitSphere]⟩ probeRay 0.0001 ⊤ =
      some probeHit := by
  simp [Scene.hit, sceneHitLoop, Object.hit, sphere_hit_probe]

theorem ray_color_up_eval (limit : ℕ) :
    ray_color ⟨[]⟩ limit rayUp rndZero = LinearColor.from_channels 1 1 1 0 := by
  rw [ray_color]
  have hnone : Scene.hit ⟨[]⟩ rayUp 0.0001 ⊤ = none := rfl
  rw [hnone]
  norm_num [rayUp, Vec3.normalized, Vec3.len, Vec3.len_squared, Vec3.dot,
    vec3, lerp, LinearColor.from_channels]

/- ------------------------------------------------------------------ -/
/- C1: integrator with exhausted bounce budget                         -/
/- ------------------------------------------------------------------ -/

/-- C1, counterexample: with `depth_left = 0` and a ray that misses
    everything (empty scene, ray pointing straight up), the integrator
    returns the background `(1,1,1,0)` — not zero radiance.  The
    `limit == 0` test sits inside the hit branch of `ray_color`, so it
    never fires on a miss. -/
theorem c1_depth_zero_counterexample :
    ray_color ⟨[]⟩ 0 rayUp rndZero = LinearColor.from_channels 1 1 1 0 ∧
    ¬((ray_color ⟨[]⟩ 0 rayUp rndZero).r = 0 ∧
      (ray_color ⟨[]⟩ 0 rayUp rndZero).g = 0 ∧
      (ray_color ⟨[]⟩ 0 rayUp rndZero).b = 0) := by
  refine ⟨ray_color_up_eval 0, ?_⟩
  rw [ray_color_up_eval 0]
  intro h
  exact one_ne_zero h.1

/-- C1, amended: calling the integrator with `depth_left = 0` returns
    zero radiance `(0,0,0)` (with alpha 1) for every ray that hits some
    object in the scene; a ray that misses everything instead returns
    the background gradient regardless of the exhausted budget. -/
theorem c1_depth_zero_amended (scene : Scene) (ray : Ray) (rnd : RndStream)
    (h : HitStruct) (hhit : Scene.hit scene ray 0.0001 ⊤ = some h) :
    ray_color scene 0 ray rnd = LinearColor.from_channels 0 0 0 1 := by
  rw [ray_color, hhit]
  rfl

/-- C1 witness: a scene holding the unit sphere, hit by `probeRay`. -/
theorem c1_depth_zero_witness :
    ray_color ⟨[Object.sphere unitSphere]⟩ 0 probeRay rndZero =
      LinearColor.from_channels 0 0 0 1 :=
  c1_depth_zero_amended _ _ _ probeHit scene_hit_probe

/- ------------------------------------------------------------------ -/
/- C6: background on miss, alpha channel                               -/
/- ------------------------------------------------------------------ -/

/-- C6: on a miss the integrator returns the studio background — the
    linear interpolation at `t = 0.5 * (normalize(dir).y + 1)` between
    `(0,0,0)` (alpha 0) at `t = 0` and `(1,1,1)` (alpha 0) at `t = 1` —
    whose alpha is 0; and a sample whose ray hits and whose material
    scatters yields alpha 1. -/
theorem c6_background_theorem (scene : Scene) (ray : Ray) (limit : ℕ)
    (rnd : RndStream) :
    (Scene.hit scene ray 0.0001 ⊤ = none →
      ray_color scene limit ray rnd =
        lerp ((ray.d.normalized.y + 1) * 0.5)
          (LinearColor.from_channels 0 0 0 0)
          (LinearColor.from_channels 1 1 1 0) ∧
      (ray_color scene limit ray rnd).a = 0) ∧
    lerp 0 (LinearColor.from_channels 0 0 0 0)
      (LinearColor.from_channels 1 1 1 0) =
      LinearColor.from_channels 0 0 0 0 ∧
    lerp 1 (LinearColor.from_channels 0 0 0 0)
      (LinearColor.from_channels 1 1 1 0) =
      LinearColor.from_channels 1 1 1 0 ∧
    (∀ (h : HitStruct) (n : ℕ) (r' : Ray),
      Scene.hit scene ray 0.0001 ⊤ = some h → limit = n + 1 →
      (Material.scatter h.material ray h (vec3 0 0 0) (rnd 0)).2 = some r' →
      (ray_color scene limit ray rnd).a = 1) := by
  refine ⟨?_, ?_, ?_, ?_⟩
  · intro hnone
    constructor
    · rw [ray_color, hnone]
    · rw [ray_color, hnone]
      simp [lerp, LinearColor.from_channels]
  · simp [lerp, LinearColor.from_channels]
  · norm_num [lerp, LinearColor.from_channels]
  · intro h n r' hhit hlim hsc
    subst hlim
    rw [ray_color, hhit]
    simp only [hsc]
    rfl

/-- C6 witness: the miss branch on the empty scene for an upward ray,
    and the hit-and-scatter branch on the unit sphere. -/
theorem c6_background_witness :
    (ray_color ⟨[]⟩ 0 rayUp rndZero).a = 0 ∧
    (ray_color ⟨[Object.sphere unitSphere]⟩ 1 probeRay rndZero).a = 1 := by
  constructor
  · exact ((c6_background_theorem ⟨[]⟩ rayUp 0 rndZero).1 rfl).2
  · exact (c6_background_theorem ⟨[Object.sphere unitSphere]⟩ probeRay 1
      rndZero).2.2.2 probeHit 0 ⟨point3 0 0 0, vec3 0 0 0⟩
      scene_hit_probe rfl rfl

/- ------------------------------------------------------------------ -/
/- C2: normal orientation of hit records                               -/
/- ------------------------------------------------------------------ -/

/-- A ray starting at the center of `unitSphere`, i.e. inside it. -/
def rayInside : Ray := ⟨point3 0 0 0, vec3 0 0 1⟩

/-- The record `Sphere::hit` produces for `rayInside`: the far root
    `t = 1`, carrying the raw outward normal `(0,0,1)`. -/
def insideHit : HitStruct := ⟨1, point3 0 0 1, vec3 0 0 1, false,
  Material.null⟩

/-- C2: `Sphere::hit` builds its `HitStruct` literal directly from the
    raw outward normal — it never calls `HitStruct::new` (the literal
    even omits the `front_face` field `hit.rs` requires) — so a ray
    leaving the sphere's inside receives a normal pointing ALONG the
    ray: `dot(ray.direction, hit.n) = 1 > 0`, violating the invariant
    `dot(ray.direction, hit.n) < 0`. -/
theorem c2_sphere_normal_not_reoriented :
    Sphere.hit unitSphere rayInside 0 ((10 : Float) : WithTop Float) =
      some insideHit ∧
    rayInside.d.dot insideHit.n = 1 ∧
    0 < rayInside.d.dot insideHit.n := by
  refine ⟨?_, ?_, ?_⟩
  · rw [Sphere.hit]
    norm_num [unitSphere, rayInside, insideHit, Vec3.dot, Vec3.len_squared,
      Ray.eval, point3, vec3, WithTop.coe_lt_coe]
  · norm_num [rayInside, insideHit, Vec3.dot, point3, vec3]
  · norm_num [rayInside, insideHit, Vec3.dot, point3, vec3]

/- ------------------------------------------------------------------ -/
/- C7: the Möller–Trumbore unit test triangle                          -/
/- ------------------------------------------------------------------ -/

/-- The test triangle `{(0,0,0), (1,0,0), (0,1,0)}`. -/
def testTriangle : Triangle :=
  ⟨(point3 0 0 0, point3 1 0 0, point3 0 1 0), Material.null⟩

/-- The ray from `(0,0,1)` in direction `(1,2,-3)`. -/
def triRayHit : Ray := ⟨point3 0 0 1, vec3 1 2 (-3)⟩

/-- The ray from `(0,0,1)` in direction `(1,1,3)`. -/
def triRayMiss1 : Ray := ⟨point3 0 0 1, vec3 1 1 3⟩

/-- The ray from `(0,0,1)` in direction `(1,1,0)`. -/
def triRayMiss2 : Ray := ⟨point3 0 0 1, vec3 1 1 0⟩

/-- The ray from `(0,0,1)` in direction `(1,1,-1)`. -/
def triRayMiss3 : Ray := ⟨point3 0 0 1, vec3 1 1 (-1)⟩

/-- C7: the ray `(0,0,1) + t·(1,2,-3)` intersects the test triangle
    exactly at `p = (1/3, 2/3, 0)` (so in particular within `1e-5` of
    it) with normal `(0,0,1)` and `dot(dir, n) = -3 < 0`, while the rays
    in directions `(1,1,3)`, `(1,1,0)` and `(1,1,-1)` all miss. -/
theorem c7_triangle_intersection :
    moller_trumbore triRayHit testTriangle =
      some ⟨point3 (1/3) (2/3) 0, vec3 0 0 1, 1/3, (1/3, 2/3)⟩ ∧
    triRayHit.d.dot (vec3 0 0 1) < 0 ∧
    moller_trumbore triRayMiss1 testTriangle = none ∧
    moller_trumbore triRayMiss2 testTriangle = none ∧
    moller_trumbore triRayMiss3 testTriangle = none := by
  refine ⟨?_, ?_, ?_, ?_, ?_⟩
  · rw [moller_trumbore]
    norm_num [testTriangle, triRayHit, EPSILON, Vec3.dot, Vec3.cross,
      Vec3.normalized, Vec3.len, Vec3.len_squared, point3, vec3]
  · norm_num [triRayHit, Vec3.dot, vec3]
  · rw [moller_trumbore]
    norm_num [testTriangle, triRayMiss1, EPSILON, Vec3.dot, Vec3.cross,
      point3, vec3]
  · rw [moller_trumbore]
    norm_num [testTriangle, triRayMiss2, EPSILON, Vec3.dot, Vec3.cross,
      point3, vec3]
  · rw [moller_trumbore]
    norm_num [testTriangle, triRayMiss3, EPSILON, Vec3.dot, Vec3.cross,
      point3, vec3]

/- ------------------------------------------------------------------ -/
/- C4: Scene::hit scans all objects and returns the nearest hit        -/
/- ------------------------------------------------------------------ -/

theorem Vec3.len_squared_nonneg (v : Vec3) : 0 ≤ v.len_squared := by
  simp only [Vec3.len_squared, Vec3.dot]
  have hx := mul_self_nonneg v.x
  have hy := mul_self_nonneg v.y
  have hz := mul_self_nonneg v.z
  linarith

/-- The two candidate roots of the sphere quadratic are ordered (with
    the Lean convention `x / 0 = 0` making the degenerate case equal). -/
theorem sphere_roots_ordered {a b s : Float} (ha : 0 ≤ a) (hs : 0 ≤ s) :
    (-b - s) / a ≤ (-b + s) / a := by
  rcases eq_or_lt_of_le ha with h | h
  · rw [← h, div_zero, div_zero]
  · rw [div_le_div_iff_of_pos_right h]
    linarith

/-- Widening the window of a first-root-then-second-root acceptance
    chain preserves the returned value. -/
theorem window_widen {α : Type} {t_min : Float} {t_max t_max' : WithTop Float}
    {t1 t2 : Float} (h12 : t1 ≤ t2) (hle : t_max ≤ t_max')
    {o1 o2 : Option α} {h : α}
    (hh : (if t1 > t_min ∧ (t1 : WithTop Float) < t_max then o1
           else if t2 > t_min ∧ (t2 : WithTop Float) < t_max then o2
           else none) = some h) :
    (if t1 > t_min ∧ (t1 : WithTop Float) < t_max' then o1
     else if t2 > t_min ∧ (t2 : WithTop Float) < t_max' then o2
     else none) = some h := by
  split_ifs at hh with hc1 hc2
  · rw [if_pos ⟨hc1.1, lt_of_lt_of_le hc1.2 hle⟩]; exact hh
  · have hne : ¬(t1 > t_min ∧ (t1 : WithTop Float) < t_max') := by
      rintro ⟨hgt, _⟩
      rcases not_and_or.mp hc1 with hb | hb
      · exact hb hgt
      · exact hb (lt_of_le_of_lt (WithTop.coe_le_coe.mpr h12) hc2.2)
    rw [if_neg hne, if_pos ⟨hc2.1, lt_of_lt_of_le hc2.2 hle⟩]; exact hh

/-- Narrowing the window above the accepted time preserves the value. -/
theorem window_narrow {t_min : Float} {t_max t_max' : WithTop Float}
    {t1 t2 : Float} {r1 r2 h : HitStruct}
    (hle : t_max' ≤ t_max)
    (hh : (if t1 > t_min ∧ (t1 : WithTop Float) < t_max then some r1
           else if t2 > t_min ∧ (t2 : WithTop Float) < t_max then some r2
           else none) = some h)
    (hlt : (h.t : WithTop Float) < t_max')
    (e1 : r1.t = t1) (e2 : r2.t = t2) :
    (if t1 > t_min ∧ (t1 : WithTop Float) < t_max' then some r1
     else if t2 > t_min ∧ (t2 : WithTop Float) < t_max' then some r2
     else none) = some h := by
  split_ifs at hh with hc1 hc2
  · cases hh
    rw [e1] at hlt
    rw [if_pos ⟨hc1.1, hlt⟩]
  · cases hh
    rw [e2] at hlt
    have hne : ¬(t1 > t_min ∧ (t1 : WithTop Float) < t_max') := by
      rintro ⟨hgt, hlt1⟩
      rcases not_and_or.mp hc1 with hb | hb
      · exact hb hgt
      · exact hb (lt_of_lt_of_le hlt1 hle)
    rw [if_neg hne, if_pos ⟨hc2.1, hlt⟩]

/-- The accepted value of an acceptance chain lies inside the window. -/
theorem window_bounds {t_min : Float} {t_max : WithTop Float}
    {d : Prop} {t1 t2 : Float} {r1 r2 h : HitStruct}
    (hh : (if d then
             (if t1 > t_min ∧ (t1 : WithTop Float) < t_max then some r1
              else if t2 > t_min ∧ (t2 : WithTop Float) < t_max then some r2
              else none)
           else none) = some h)
    (e1 : r1.t = t1) (e2 : r2.t = t2) :
    t_min < h.t ∧ (h.t : WithTop Float) < t_max := by
  by_cases hd : d
  · rw [if_pos hd] at hh
    split_ifs at hh with hc1 hc2
    · cases hh; rw [e1]; exact hc1
    · cases hh; rw [e2]; exact hc2
  · rw [if_neg hd] at hh; cases hh

/-- `Triangle::hit` after a successful Möller–Trumbore intersection. -/
theorem Triangle.hit_of_some (tr : Triangle) (ray : Ray) (t_min : Float)
    (t_max : WithTop Float) (i : Intersection)
    (hmt : tr.intersection ray = some i) :
    tr.hit ray t_min t_max =
      if i.t > t_min ∧ (i.t : WithTop Float) < t_max then
        some (HitStruct.new i.t i.p ray i.n tr.material)
      else none := by
  unfold Triangle.hit
  rw [hmt]

/-- `Triangle::hit` after a failed Möller–Trumbore intersection. -/
theorem Triangle.hit_of_none (tr : Triangle) (ray : Ray) (t_min : Float)
    (t_max : WithTop Float) (hmt : tr.intersection ray = none) :
    tr.hit ray t_min t_max = none := by
  unfold Triangle.hit
  rw [hmt]

/-- Any hit a primitive reports lies strictly inside the window. -/
theorem Object.hit_bounds (o : Object) (ray : Ray) (t_min : Float)
    (t_max : WithTop Float) (h : HitStruct)
    (hh : o.hit ray t_min t_max = some h) :
    t_min < h.t ∧ (h.t : WithTop Float) < t_max := by
  cases o with
  | sphere sp =>
      simp only [Object.hit, Sphere.hit] at hh
      exact window_bounds hh rfl rfl
  | triangle tr =>
      simp only [Object.hit] at hh
      cases hmt : tr.intersection ray with
      | some i =>
          rw [Triangle.hit_of_some tr ray t_min t_max i hmt] at hh
          split_ifs at hh with hc
          cases hh
          exact hc
      | none => rw [Triangle.hit_of_none tr ray t_min t_max hmt] at hh; cases hh

/-- Widening the window preserves a primitive's reported hit. -/
theorem Object.hit_widen (o : Object) (ray : Ray) (t_min : Float)
    {t_max t_max' : WithTop Float} (hle : t_max ≤ t_max') (h : HitStruct)
    (hh : o.hit ray t_min t_max = some h) :
    o.hit ray t_min t_max' = some h := by
  cases o with
  | sphere sp =>
      simp only [Object.hit, Sphere.hit] at hh ⊢
      by_cases hd : ((ray.o - sp.center).dot ray.d) *
          ((ray.o - sp.center).dot ray.d) -
          ray.d.len_squared *
            ((ray.o - sp.center).len_squared - sp.radius * sp.radius) > 0
      · rw [if_pos hd] at hh ⊢
        exact window_widen
          (sphere_roots_ordered (Vec3.len_squared_nonneg ray.d)
            (Real.sqrt_nonneg _)) hle hh
      · rw [if_neg hd] at hh; cases hh
  | triangle tr =>
      simp only [Object.hit] at hh ⊢
      cases hmt : tr.intersection ray with
      | some i =>
          rw [Triangle.hit_of_some tr ray t_min t_max i hmt] at hh
          rw [Triangle.hit_of_some tr ray t_min t_max' i hmt]
          split_ifs at hh with hc
          rw [if_pos ⟨hc.1, lt_of_lt_of_le hc.2 hle⟩]
          exact hh
      | none => rw [Triangle.hit_of_none tr ray t_min t_max hmt] at hh; cases hh

/-- Narrowing the window above the reported hit time preserves it. -/
theorem Object.hit_narrow (o : Object) (ray : Ray) (t_min : Float)
    {t_max t_max' : WithTop Float} (hle : t_max' ≤ t_max) (h : HitStruct)
    (hh : o.hit ray t_min t_max = some h)
    (hlt : (h.t : WithTop Float) < t_max') :
    o.hit ray t_min t_max' = some h := by
  cases o with
  | sphere sp =>
      simp only [Object.hit, Sphere.hit] at hh ⊢
      by_cases hd : ((ray.o - sp.center).dot ray.d) *
          ((ray.o - sp.center).dot ray.d) -
          ray.d.len_squared *
            ((ray.o - sp.center).len_squared - sp.radius * sp.radius) > 0
      · rw [if_pos hd] at hh ⊢
        exact window_narrow hle hh hlt rfl rfl
      · rw [if_neg hd] at hh; cases hh
  | triangle tr =>
      simp only [Object.hit] at hh ⊢
      cases hmt : tr.intersection ray with
      | some i =>
          rw [Triangle.hit_of_some tr ray t_min t_max i hmt] at hh
          rw [Triangle.hit_of_some tr ray t_min t_max' i hmt]
          split_ifs at hh with hc
          cases hh
          rw [if_pos ⟨hc.1, hlt⟩]
      | none => rw [Triangle.hit_of_none tr ray t_min t_max hmt] at hh; cases hh

theorem sceneHitLoop_ne_none (ray : Ray) (t_min : Float) :
    ∀ (objs : List Object) (t_max : WithTop Float) (hb : HitStruct),
      sceneHitLoop ray t_min objs t_max (some hb) ≠ none := by
  intro objs
  induction objs with
  | nil =>
      intro t_max hb hcontra
      simp [sceneHitLoop] at hcontra
  | cons o rest ih =>
      intro t_max hb hcontra
      simp only [sceneHitLoop] at hcontra
      cases ho : Object.hit o ray t_min t_max with
      | some h0 => simp only [ho] at hcontra; exact ih _ h0 hcontra
      | none => simp only [ho] at hcontra; exact ih t_max hb hcontra

theorem sceneHitLoop_none_iff (ray : Ray) (t_min : Float) :
    ∀ (objs : List Object) (t_max : WithTop Float),
      sceneHitLoop ray t_min objs t_max none = none ↔
        ∀ o ∈ objs, Object.hit o ray t_min t_max = none := by
  intro objs
  induction objs with
  | nil => intro t_max; simp [sceneHitLoop]
  | cons o rest ih =>
      intro t_max
      simp only [sceneHitLoop]
      cases ho : Object.hit o ray t_min t_max with
      | some h0 =>
          simp only [ho]
          constructor
          · intro hc
            exact absurd hc (sceneHitLoop_ne_none ray t_min rest _ h0)
          · intro hall
            have hnone := hall o (List.mem_cons_self o rest)
            rw [hnone] at ho
            cases ho
      | none =>
          simp only [ho]
          rw [ih t_max]
          constructor
          · intro hall o' ho'
            rcases List.mem_cons.mp ho' with rfl | hmem
            · exact ho
            · exact hall o' hmem
          · intro hall o' ho'
            exact hall o' (List.mem_cons_of_mem o ho')

/-- The invariant of the `Scene::hit` loop: from any intermediate state
    whose running bound equals the current best hit's time, the loop
    result stays below the bound, improves on the best, originates from
    the best or from one of the remaining objects, and undercuts every
    hit any remaining object reports on the original window `tmax0`. -/
theorem sceneHitLoop_min (ray : Ray) (t_min : Float) (tmax0 : WithTop Float) :
    ∀ (objs : List Object) (t_max : WithTop Float) (best : Option HitStruct),
      t_max ≤ tmax0 →
      (∀ hb, best = some hb → (hb.t : WithTop Float) = t_max) →
      ∀ h, sceneHitLoop ray t_min objs t_max best = some h →
        (h.t : WithTop Float) ≤ t_max ∧
        (best = some h ∨ ∃ o ∈ objs, Object.hit o ray t_min tmax0 = some h) ∧
        (∀ hb, best = some hb → h.t ≤ hb.t) ∧
        (∀ o ∈ objs, ∀ h', Object.hit o ray t_min tmax0 = some h' →
          h.t ≤ h'.t) := by
  intro objs
  induction objs with
  | nil =>
      intro t_max best hle hbt h hres
      simp only [sceneHitLoop] at hres
      refine ⟨le_of_eq (hbt h hres), Or.inl hres, ?_, ?_⟩
      · intro hb hhb
        rw [hres] at hhb
        cases hhb
        exact le_refl _
      · intro o ho
        exact absurd ho (List.not_mem_nil o)
  | cons o rest ih =>
      intro t_max best hle hbt h hres
      simp only [sceneHitLoop] at hres
      cases ho : Object.hit o ray t_min t_max with
      | some h0 =>
          simp only [ho] at hres
          have hb0 := Object.hit_bounds o ray t_min t_max h0 ho
          have hle0 : (h0.t : WithTop Float) ≤ tmax0 :=
            le_trans (le_of_lt hb0.2) hle
          obtain ⟨iht, ihprov, ihbest, ihmin⟩ :=
            ih (h0.t : WithTop Float) (some h0) hle0
              (by intro hb hhb; cases hhb; rfl) h hres
          have hth0 : h.t ≤ h0.t := ihbest h0 rfl
          have hwiden := Object.hit_widen o ray t_min hle h0 ho
          refine ⟨le_trans iht (le_of_lt hb0.2), ?_, ?_, ?_⟩
          · rcases ihprov with he | ⟨o', ho', hh'⟩
            · cases he
              exact Or.inr ⟨o, List.mem_cons_self o rest, hwiden⟩
            · exact Or.inr ⟨o', List.mem_cons_of_mem o ho', hh'⟩
          · intro hb hhb
            have hbe := hbt hb hhb
            have hlt : (h.t : WithTop Float) < (hb.t : WithTop Float) := by
              rw [hbe]
              exact lt_of_le_of_lt iht hb0.2
            exact le_of_lt (WithTop.coe_lt_coe.mp hlt)
          · intro o' ho' h' hh'
            rcases List.mem_cons.mp ho' with rfl | hmem
            · rw [hwiden] at hh'
              cases hh'
              exact hth0
            · exact ihmin o' hmem h' hh'
      | none =>
          simp only [ho] at hres
          obtain ⟨iht, ihprov, ihbest, ihmin⟩ := ih t_max best hle hbt h hres
          refine ⟨iht, ?_, ihbest, ?_⟩
          · rcases ihprov with he | ⟨o', ho', hh'⟩
            · exact Or.inl he
            · exact Or.inr ⟨o', List.mem_cons_of_mem o ho', hh'⟩
          · intro o' ho' h' hh'
            rcases List.mem_cons.mp ho' with rfl | hmem
            · by_cases hc : (h'.t : WithTop Float) < t_max
              · have hnar := Object.hit_narrow o' ray t_min hle h' hh' hc
                rw [ho] at hnar
                cases hnar
              · push_neg at hc
                exact WithTop.coe_le_coe.mp (le_trans iht hc)
            · exact ihmin o' hmem h' hh'

/-- C4: `Scene::hit` misses exactly when every object misses on the
    full window, and any hit it returns is a hit some object reports on
    the full window whose time undercuts the time of every hit every
    object reports there — the globally nearest hit. -/
theorem c4_scene_hit_nearest (objs : List Object) (ray : Ray)
    (t_min : Float) (t_max : WithTop Float) :
    (Scene.hit ⟨objs⟩ ray t_min t_max = none ↔
      ∀ o ∈ objs, Object.hit o ray t_min t_max = none) ∧
    (∀ h, Scene.hit ⟨objs⟩ ray t_min t_max = some h →
      (∃ o ∈ objs, Object.hit o ray t_min t_max = some h) ∧
      (∀ o ∈ objs, ∀ h', Object.hit o ray t_min t_max = some h' →
        h.t ≤ h'.t)) := by
  constructor
  · exact sceneHitLoop_none_iff ray t_min objs t_max
  · intro h hres
    obtain ⟨-, hprov, -, hmin⟩ :=
      sceneHitLoop_min ray t_min t_max objs t_max none le_rfl
        (by intro hb hhb; cases hhb) h hres
    refine ⟨?_, hmin⟩
    rcases hprov with hbad | hex
    · cases hbad
    · exact hex

theorem sphere_hit_probe0 :
    Sphere.hit unitSphere probeRay 0 ⊤ = some probeHit := by
  rw [Sphere.hit]
  norm_num [unitSphere, probeRay, probeHit, Vec3.dot, Vec3.len_squared,
    Ray.eval, point3, vec3]

theorem scene_hit_probe0 :
    Scene.hit ⟨[Object.sphere unitSphere]⟩ probeRay 0 ⊤ = some probeHit := by
  simp [Scene.hit, sceneHitLoop, Object.hit, sphere_hit_probe0]

/-- C4 witness: the singleton scene of the unit sphere with the
    window `(0, ∞)`. -/
theorem c4_scene_hit_witness :
    (∃ o ∈ [Object.sphere unitSphere],
        Object.hit o probeRay 0 ⊤ = some probeHit) ∧
    probeHit.t ≤ probeHit.t := by
  have h := (c4_scene_hit_nearest [Object.sphere unitSphere] probeRay 0
      ⊤).2 probeHit scene_hit_probe0
  refine ⟨h.1, ?_⟩
  exact h.2 (Object.sphere unitSphere) (List.mem_cons_self _ _) probeHit
    (by simpa [Object.hit] using sphere_hit_probe0)

/- ------------------------------------------------------------------ -/
/- C10: the alpha channel of the rendered pixel buffer                 -/
/- ------------------------------------------------------------------ -/

@[simp]
theorem LinearColor.a_from_channels (r g b a : Float) :
    (LinearColor.from_channels r g b a).a = a := rfl

/-- Folding any alpha-preserving accumulation step preserves alpha. -/
theorem foldl_alpha (g : LinearColor → ℕ → LinearColor)
    (hg : ∀ c k, (g c k).a = c.a) :
    ∀ (ks : List ℕ) (acc : LinearColor), (ks.foldl g acc).a = acc.a := by
  intro ks
  induction ks with
  | nil => intro acc; rfl
  | cons k rest ih =>
      intro acc
      simp only [List.foldl_cons]
      rw [ih (g acc k), hg]

/-- Every pixel `render` produces carries the alpha of the default
    accumulator, namely 1. -/
theorem renderPixel_alpha (scene : Scene) (camera : Camera)
    (opt : RenderOptions) (i j : ℕ) (rnd : PixelRnd) :
    (renderPixel scene camera opt i j rnd).a = 1 := by
  unfold renderPixel
  simp only [LinearColor.smul_channels, LinearColor.a_from_channels]
  rw [foldl_alpha]
  · rfl
  · intro c k; rfl

/-- C10: `LinearColor` addition and scalar multiplication keep the left
    operand's alpha (ignoring the right operand's), and consequently
    every pixel `render` produces has alpha exactly 1 — the alpha-0
    background samples never reach the output buffer. -/
theorem c10_render_alpha_one :
    (∀ c rhs : LinearColor, (c + rhs).a = c.a) ∧
    (∀ (c : LinearColor) (s : Float), (c * s).a = c.a) ∧
    (∀ (scene : Scene) (camera : Camera) (opt : RenderOptions)
        (rnd : ℕ → ℕ → PixelRnd) (c : LinearColor),
      c ∈ render scene camera opt rnd → c.a = 1) := by
  refine ⟨fun c rhs => rfl, fun c s => rfl, ?_⟩
  intro scene camera opt rnd c hc
  unfold render at hc
  rw [List.mem_flatten] at hc
  obtain ⟨row, hrow, hcrow⟩ := hc
  rw [List.mem_map] at hrow
  obtain ⟨j, hj, rfl⟩ := hrow
  rw [List.mem_map] at hcrow
  obtain ⟨i, hi, rfl⟩ := hcrow
  exact renderPixel_alpha scene camera opt i j (rnd j i)

/-- A trivial axis-aligned camera whose `get_ray 0 0` is `rayUp`. -/
def camera0 : Camera := ⟨point3 0 0 0, vec3 0 1 0, vec3 0 0 0, vec3 0 0 0⟩

/-- One pixel, one sample. -/
def opt0 : RenderOptions := ⟨1, 1, 1, 50⟩

/-- Zero pixel-sampling randomness. -/
def rnd0 : ℕ → ℕ → PixelRnd := fun _ _ _ => (0, 0, rndZero)

theorem camera0_get_ray : camera0.get_ray 0 0 = rayUp := by
  unfold Camera.get_ray camera0 rayUp Point3.origin
  norm_num [point3, vec3]

theorem render_tiny_eval :
    render ⟨[]⟩ camera0 opt0 rnd0 = [LinearColor.from_channels 1 1 1 1] := by
  unfold render renderPixel opt0
  norm_num [show List.range 1 = [0] from rfl, rnd0, camera0_get_ray,
    ray_color_up_eval, LinearColor.defaultColor, LinearColor.from_channels]

/-- C10 witness: a one-pixel one-sample render of the empty scene; the
    sample is an alpha-0 background miss, yet the pixel has alpha 1. -/
theorem c10_render_alpha_witness :
    (LinearColor.from_channels 1 1 1 1).a = 1 := by
  refine c10_render_alpha_one.2.2 ⟨[]⟩ camera0 opt0 rnd0 _ ?_
  rw [render_tiny_eval]
  exact List.mem_singleton_self _

end RT
